import Mathlib

/-
Shallow embedding of the tab controller of this repository
(src/electron/addon/tabs/index.js, class TabbedWindow and its IPC channel).

Conventions of the embedding:
* JavaScript objects used as string-keyed records are modelled as
  association lists; an entry whose value is `none` models an explicit
  `null` tombstone, a missing entry models `undefined`.
* Calls into the host runtime (BrowserWindow / BrowserView / ipc replies /
  EventEmitter emissions) are recorded as an `Effect` trace, newest first.
* A thrown host exception (addBrowserView on a missing view) sets the
  `crashed` flag and aborts the remainder of the operation, mirroring an
  exception propagating out of the handler.
-/

namespace ElectronTabs

/-- JavaScript values that can appear in a tab-configuration field. -/
inductive JVal where
  | vStr (s : String)
  | vBool (b : Bool)
  | vUndefined
deriving DecidableEq, Repr

/-- Field names of a Tab record (typedef Tab in the source). -/
inductive TabField where
  | url | href | title | favicon | isLoading | canGoBack | canGoForward
deriving DecidableEq, Repr

/-- Tab metadata record; a fresh JS object has every field undefined. -/
structure Tab where
  url : JVal := .vUndefined
  href : JVal := .vUndefined
  title : JVal := .vUndefined
  favicon : JVal := .vUndefined
  isLoading : JVal := .vUndefined
  canGoBack : JVal := .vUndefined
  canGoForward : JVal := .vUndefined
deriving DecidableEq, Repr

/-- Read a field of a Tab by name. -/
def getField (t : Tab) : TabField → JVal
  | .url => t.url
  | .href => t.href
  | .title => t.title
  | .favicon => t.favicon
  | .isLoading => t.isLoading
  | .canGoBack => t.canGoBack
  | .canGoForward => t.canGoForward

/-- Write a field of a Tab by name. -/
def setField (t : Tab) : TabField → JVal → Tab
  | .url, v => { t with url := v }
  | .href, v => { t with href := v }
  | .title, v => { t with title := v }
  | .favicon, v => { t with favicon := v }
  | .isLoading, v => { t with isLoading := v }
  | .canGoBack, v => { t with canGoBack := v }
  | .canGoForward, v => { t with canGoForward := v }

/-- Spread a partial record kv onto t, later keys overwriting earlier ones
(the JS object spread semantics used by setTabConfig). -/
def applyKv (t : Tab) (kv : List (TabField × JVal)) : Tab :=
  kv.foldl (fun acc p => setField acc p.1 p.2) t

/-- Last value bound to field f in kv, if any. -/
def lastKv (kv : List (TabField × JVal)) (f : TabField) : Option JVal :=
  kv.foldl (fun acc p => if p.1 = f then some p.2 else acc) none

/-- State of a web contents object, as far as the controller observes it. -/
structure WebContentsS where
  url : String
  canGoBack : Bool
  canGoForward : Bool
  destroyed : Bool
  marks : Bool
deriving DecidableEq, Repr

/-- A BrowserView: its id (copied from webContents.id) and its contents. -/
structure ViewS where
  id : Nat
  wc : WebContentsS
deriving DecidableEq, Repr

/-- The TabbedWindow constructor options the embedded code reads. -/
structure Options where
  blankPage : String
  blankTitle : String
  startPage : String
deriving DecidableEq, Repr

/-- Observable calls into the host runtime, emitted by the controller. -/
inductive Effect where
  | removeBrowserView (id : Nat)
  | addBrowserView (id : Nat)
  | relayout (id : Nat)
  | activeUpdate (id : Nat)
  | tabsUpdate (confs : List (Option Nat × Option Tab)) (order : List Nat)
  | sendCurrentTab (id : Nat)
  | focusContents (id : Nat)
  | autoResize (id : Nat)
  | loadUrl (id : Nat) (url : String)
  | destroyContents (id : Nat)
  | emitNewTab (id : Nat) (openedURL : Option String) (lastView : Option Nat)
  | emitCloseTab (id : Nat)
  | emitControlReady
  | warnInvalidAction (name : String)
  | invokeAction (name : String)
  | winShow
deriving DecidableEq, Repr

/-- Whole TabbedWindow state.  tabConfigs is keyed by Option Nat because a
JS object indexed with a possibly-null id turns null into its own key. -/
structure State where
  nextId : Nat
  tabs : List Nat
  views : List (Nat × Option ViewS)
  tabConfigs : List (Option Nat × Option Tab)
  defCurrentViewId : Option Nat
  ipc : Bool
  winDestroyed : Bool
  crashed : Bool
  effects : List Effect
  options : Options
  controlWcId : Nat
deriving DecidableEq, Repr

/-- Update (or append) the binding of key k in an association list. -/
def alUpd {κ α : Type} [DecidableEq κ] : List (κ × α) → κ → α → List (κ × α)
  | [], k, v => [(k, v)]
  | p :: rest, k, v => if p.1 = k then (k, v) :: rest else p :: alUpd rest k v

/-- Look up key k in an association list (first binding wins). -/
def alGet {κ α : Type} [DecidableEq κ] : List (κ × α) → κ → Option α
  | [], _ => none
  | p :: rest, k => if p.1 = k then some p.2 else alGet rest k

/-- Record one host call in the trace (newest first). -/
def pushEffect (s : State) (e : Effect) : State :=
  { s with effects := e :: s.effects }

/-- Live view stored under id, collapsing a missing entry and an explicit
null tombstone (both falsy in JS) to none. -/
def jsGetView (s : State) (id : Nat) : Option ViewS :=
  match alGet s.views id with
  | some (some v) => some v
  | _ => none

/-- Non-null tab configuration stored under id. -/
def jsGetConf (s : State) (id : Nat) : Option Tab :=
  match alGet s.tabConfigs (some id) with
  | some (some t) => some t
  | _ => none

/-- Getter currentView: the truthiness test on currentViewId makes both a
null id and id 0 yield null. -/
def currentView (s : State) : Option ViewS :=
  match s.defCurrentViewId with
  | some id => if id = 0 then none else jsGetView s id
  | none => none

/-- Id of the live current view, if any. -/
def currentViewIds (s : State) : Option Nat :=
  (currentView s).map (·.id)

/-- Getter currentWebContents. -/
def currentWebContents (s : State) : Option WebContentsS :=
  (currentView s).map (·.wc)

/-- setContentBounds: relayouts the current view when there is one. -/
def setContentBounds (s : State) : State :=
  match currentView s with
  | some v => pushEffect s (.relayout v.id)
  | none => s

/-- The currentViewId property setter: stores the id, relayouts, and
replies active-update when the ipc channel is connected. -/
def assignCurrentId (s : State) (id : Nat) : State :=
  let s1 := { s with defCurrentViewId := some id }
  let s2 := setContentBounds s1
  if s2.ipc then pushEffect s2 (.activeUpdate id) else s2

/-- The tabConfigs property setter: stores the map and replies tabs-update
when the ipc channel is connected. -/
def assignTabConfigs (s : State) (confs : List (Option Nat × Option Tab)) : State :=
  let s1 := { s with tabConfigs := confs }
  if s1.ipc then pushEffect s1 (.tabsUpdate confs s1.tabs) else s1

/-- setCurrentView: detaches the current view, attaches the requested one,
assigns the selection, notifies the control surface and focuses.  Passing a
falsy id is a no-op; attaching a missing or tombstoned view throws in the
host, which aborts the rest of the operation. -/
def setCurrentView (s : State) (viewId : Option Nat) : State :=
  match viewId with
  | none => s
  | some v =>
    if v = 0 then s
    else
      let s1 :=
        match currentView s with
        | some cv => pushEffect s (.removeBrowserView cv.id)
        | none => s
      match jsGetView s1 v with
      | some _ =>
        let s2 := pushEffect s1 (.addBrowserView v)
        let s3 := assignCurrentId s2 v
        let s4 := pushEffect s3 (.sendCurrentTab v)
        pushEffect s4 (.focusContents v)
      | none => { s1 with crashed := true }

/-- destroyView: destroys the live webContents (unless already destroyed)
and tombstones the views entry; falsy entries are left untouched. -/
def destroyView (s : State) (viewId : Nat) : State :=
  match jsGetView s viewId with
  | some v =>
    let s1 := if v.wc.destroyed then s else pushEffect s (.destroyContents viewId)
    { s1 with views := alUpd s1.views viewId none }
  | none => s

/-- JS logical-or on strings (empty string is falsy). -/
def jsOr (a b : String) : String := if a = "" then b else a

/-- loadURL: no-op on a falsy url or with no current view; on the first
load it wires the navigation handlers, marks the contents as initialized
and relayouts, later loads only call webContents.loadURL. -/
def loadURL (s : State) (url : String) : State :=
  if url = "" then s
  else
    match s.defCurrentViewId with
    | none => s
    | some k =>
      if k = 0 then s
      else
        match jsGetView s k with
        | none => s
        | some v =>
          if v.wc.marks then pushEffect s (.loadUrl v.id url)
          else
            let s1 := pushEffect s (.loadUrl v.id url)
            let s2 := { s1 with
              views := alUpd s1.views k (some { v with wc := { v.wc with marks := true } }) }
            setContentBounds s2

/-- Insert x at position n of l (the splice(n, 0, x) semantics). -/
def insertAt (l : List Nat) (n : Nat) (x : Nat) : List Nat :=
  l.take n ++ x :: l.drop n

/-- Index of the first occurrence of a in l. -/
def idxOf : List Nat → Nat → Nat
  | [], _ => 0
  | x :: rest, a => if x = a then 0 else idxOf rest a + 1

/-- JS Array.prototype.indexOf: the index, or -1 when absent. -/
def jsIndexOf (l : List Nat) (a : Nat) : Int :=
  if a ∈ l then (idxOf l a : Int) else -1

/-- JS array subscript with an Int index: undefined when out of range. -/
def jsAt (l : List Nat) (n : Int) : Option Nat :=
  if n < 0 then none else l.get? n.toNat

/-- Where newTab splices the fresh id: after appendTo when that id is
truthy (splice at indexOf + 1, which is position 0 when indexOf gave -1),
else pushed at the end. -/
def spliceTabs (tabs : List Nat) (appendTo : Option Nat) (id : Nat) : List Nat :=
  match appendTo with
  | some a => if a = 0 then tabs ++ [id] else insertAt tabs (jsIndexOf tabs a + 1).toNat id
  | none => tabs ++ [id]

/-- A freshly constructed BrowserView for a given host-assigned id. -/
def freshView (id : Nat) : ViewS :=
  { id := id
    wc := { url := "", canGoBack := false, canGoForward := false,
            destroyed := false, marks := false } }

/-- JS truthiness of the webContents handle feeding the canGoBack and
canGoForward recomputation in setTabConfig. -/
def navJVal (wc : Option WebContentsS) (f : WebContentsS → Bool) : JVal :=
  match wc with
  | some w => .vBool (f w)
  | none => .vUndefined

/-- The record setTabConfig stores: the old record (a missing or null one
spreading to the empty record), overwritten by the recomputed navigation
flags, overwritten by the partial update kv. -/
def mergedTab (s : State) (viewId : Option Nat) (kv : List (TabField × JVal)) : Tab :=
  let tab : Tab :=
    match alGet s.tabConfigs viewId with
    | some (some t) => t
    | _ => {}
  let wc : Option WebContentsS :=
    match viewId with
    | some i => (jsGetView s i).map (·.wc)
    | none => none
  applyKv
    { tab with canGoBack := navJVal wc (·.canGoBack),
               canGoForward := navJVal wc (·.canGoForward) } kv

/-- setTabConfig: rebuilds the entry by spreading the old record, the
recomputed navigation flags and the partial update, then assigns the map
through its setter. -/
def setTabConfig (s : State) (viewId : Option Nat) (kv : List (TabField × JVal)) : State :=
  assignTabConfigs s (alUpd s.tabConfigs viewId (some (mergedTab s viewId kv)))

/-- newTab: fresh host id, splice into the order, register the view, make
it current, autoresize, load the url (or the blank page), register a
default config entry and emit new-tab with the previously current view. -/
def newTab (s : State) (url : Option String) (appendTo : Option Nat) : State :=
  let id := s.nextId
  let s1 := { s with
    nextId := s.nextId + 1
    tabs := spliceTabs s.tabs appendTo id
    views := alUpd s.views id (some (freshView id)) }
  let lastView := currentViewIds s1
  let s2 := setCurrentView s1 (some id)
  let s3 := pushEffect s2 (.autoResize id)
  let s4 := loadURL s3 (jsOr (url.getD "") s1.options.blankPage)
  let s5 := setTabConfig s4 (some id) [(.title, .vStr s1.options.blankTitle)]
  pushEffect s5 (.emitNewTab id url lastView)

/-- Tail of the close-tab handler, after the selection was moved: filter
the order, tombstone the config entry through the setter, destroy the
view and emit close-tab. -/
def closeTabRest (s : State) (id : Nat) : State :=
  let s2 := { s with tabs := s.tabs.filter (fun v => v != id) }
  let s3 := assignTabConfigs s2 (alUpd s2.tabConfigs (some id) none)
  let s4 := destroyView s3 id
  pushEffect s4 (.emitCloseTab id)

/-- The close-tab channel handler: when the closed id is the stored
current id, move the selection to the neighbor after it (or before it
when it was last), a step whose thrown exception would abort the rest;
then run the removal tail. -/
def closeTab (s : State) (id : Nat) : State :=
  let s1 :=
    if s.defCurrentViewId = some id then
      let removeIndex : Int := jsIndexOf s.tabs id
      let nextIndex : Int :=
        if removeIndex = (s.tabs.length : Int) - 1 then removeIndex - 1 else removeIndex + 1
      setCurrentView s (jsAt s.tabs nextIndex)
    else s
  if s1.crashed then s1 else closeTabRest s1 id

/-- switchTab simply delegates to setCurrentView. -/
def switchTab (s : State) (viewId : Nat) : State :=
  setCurrentView s (some viewId)

/-- Method names the source itself calls as functions on a webContents
object, witnessing that looking them up yields a function: the four act
commands sent by the addon helpers plus focus, destroy, isDestroyed,
loadURL, getURL, canGoBack and canGoForward used elsewhere in the file. -/
def wcActionNames : List String :=
  ["reload", "stop", "goBack", "goForward", "focus", "destroy",
   "isDestroyed", "loadURL", "getURL", "canGoBack", "canGoForward"]

/-- webContentsAct: dynamic dispatch of an action name on the current web
contents; a name that resolves to a function is invoked (reload being
skipped silently on an empty url), anything else is logged as a warning. -/
def webContentsAct (s : State) (actionName : String) : State :=
  match currentWebContents s with
  | none => pushEffect s (.warnInvalidAction actionName)
  | some wc =>
    if actionName ∈ wcActionNames then
      if actionName = "reload" ∧ wc.url = "" then s
      else pushEffect s (.invokeAction actionName)
    else pushEffect s (.warnInvalidAction actionName)

/-- The control-ready channel handler: connect the ipc channel, open the
start page tab, show the window and emit control-ready. -/
def controlReady (s : State) : State :=
  let s1 := { s with ipc := true }
  let s2 := newTab s1 (some (jsOr s1.options.startPage "")) none
  let s3 := pushEffect s2 .winShow
  pushEffect s3 .emitControlReady

/-- Inbound channel commands registered by setChannel. -/
inductive Msg where
  | act (name : String)
  | closeTabMsg (id : Nat)
  | controlReadyMsg
  | newTabMsg (url : Option String)
  | switchTabMsg (id : Nat)
  | urlChange (url : String)
deriving DecidableEq, Repr

/-- The raw channel listeners, before the sender guard is wrapped on. -/
def handleRaw (s : State) : Msg → State
  | .act n => webContentsAct s n
  | .closeTabMsg id => closeTab s id
  | .controlReadyMsg => controlReady s
  | .newTabMsg u => newTab s u none
  | .switchTabMsg id => switchTab s id
  | .urlChange u => setTabConfig s s.defCurrentViewId [(.url, .vStr u)]

/-- The listeners as actually registered: every channel is wrapped in the
multiple-windows guard comparing the sender with this window's own control
webContents and checking the window is alive. -/
def handleMsg (s : State) (senderId : Nat) (m : Msg) : State :=
  if s.winDestroyed = false ∧ senderId = s.controlWcId then handleRaw s m else s

/-- The controller state right after the constructor ran. -/
def initState (opts : Options) (controlId : Nat) : State :=
  { nextId := 1, tabs := [], views := [], tabConfigs := []
    defCurrentViewId := none, ipc := false, winDestroyed := false
    crashed := false, effects := [], options := opts, controlWcId := controlId }

/-- Registry operations quantified over by the invariant claims. -/
inductive TabOp where
  | openTab (url : Option String) (appendTo : Option Nat)
  | close (id : Nat)
deriving DecidableEq, Repr

/-- Apply one registry operation. -/
def applyOp (s : State) : TabOp → State
  | .openTab u a => newTab s u a
  | .close id => closeTab s id

/-- Apply a sequence of registry operations. -/
def applyOps (s : State) (ops : List TabOp) : State :=
  ops.foldl applyOp s

/-- Wellformedness of a stored view entry: a live view is not destroyed
and records its own key as id. -/
def viewEntryOkB (p : Nat × Option ViewS) : Bool :=
  match p.2 with
  | some v => !v.wc.destroyed && v.id == p.1
  | none => true

/-- Boolean check that a stored current id (when one is set) was issued
by the id source. -/
def currIdOkB (s : State) : Bool :=
  match s.defCurrentViewId with
  | some k => decide (k < s.nextId)
  | none => true

/-- The registry invariant of the specification: the order is duplicate
free and lists exactly the live (non-tombstoned) views, every listed id
has a non-null config entry and a positive, not-yet-recycled id; stored
views are internally consistent, the view map has no duplicate keys and
the stored current id was issued by the id source. -/
def Inv (s : State) : Prop :=
  s.tabs.Nodup ∧
  (∀ id ∈ s.tabs, (jsGetView s id).isSome = true) ∧
  (∀ p ∈ s.views, p.2.isSome = true → p.1 ∈ s.tabs) ∧
  (∀ id ∈ s.tabs, (jsGetConf s id).isSome = true) ∧
  (∀ id ∈ s.tabs, 0 < id ∧ id < s.nextId) ∧
  (∀ p ∈ s.views, viewEntryOkB p = true) ∧
  (s.views.map Prod.fst).Nodup ∧
  0 < s.nextId ∧
  s.crashed = false ∧
  currIdOkB s = true

instance (s : State) : Decidable (Inv s) := by
  unfold Inv; infer_instance

/-- The neighbor-after-else-before rule of the specification for picking
the next active tab, stated on the pre-close order. -/
def neighborAfterElseBefore (l : List Nat) (id : Nat) : Option Nat :=
  if l.length ≤ 1 then none
  else if idxOf l id = l.length - 1 then l.get? (idxOf l id - 1)
  else l.get? (idxOf l id + 1)

/-- Example state for exercising the channel guard. -/
def c7s : State := initState ⟨"blank", "title", "start"⟩ 9

/-- Example state with a live active view for the act-command claims. -/
def c8s : State :=
  { nextId := 2
    tabs := [1]
    views := [(1, some ⟨1, ⟨"https://x.test", false, false, false, true⟩⟩)]
    tabConfigs := [(some 1, some {})]
    defCurrentViewId := some 1
    ipc := true
    winDestroyed := false
    crashed := false
    effects := []
    options := ⟨"blank", "title", "start"⟩
    controlWcId := 9 }

/-- Example state whose active view has an empty URL. -/
def c10s : State :=
  { nextId := 2
    tabs := [1]
    views := [(1, some ⟨1, ⟨"", true, false, false, true⟩⟩)]
    tabConfigs := [(some 1, some {})]
    defCurrentViewId := some 1
    ipc := true
    winDestroyed := false
    crashed := false
    effects := []
    options := ⟨"blank", "title", "start"⟩
    controlWcId := 9 }

/-- Example registry holding only tab 1, used against an absent id. -/
def c5s : State :=
  { nextId := 2
    tabs := [1]
    views := [(1, some ⟨1, ⟨"https://x.test", false, false, false, true⟩⟩)]
    tabConfigs := [(some 1, some {})]
    defCurrentViewId := some 1
    ipc := true
    winDestroyed := false
    crashed := false
    effects := []
    options := ⟨"blank", "title", "start"⟩
    controlWcId := 9 }

/-- Example registry with three tabs, the first one active. -/
def c9s : State :=
  { nextId := 4
    tabs := [1, 2, 3]
    views := [(1, some ⟨1, ⟨"https://a.test", false, false, false, true⟩⟩),
              (2, some ⟨2, ⟨"https://b.test", false, false, false, true⟩⟩),
              (3, some ⟨3, ⟨"https://c.test", false, false, false, true⟩⟩)]
    tabConfigs := [(some 1, some {}), (some 2, some {}), (some 3, some {})]
    defCurrentViewId := some 1
    ipc := true
    winDestroyed := false
    crashed := false
    effects := []
    options := ⟨"blank", "title", "start"⟩
    controlWcId := 9 }

/-- Example state with no configuration entries at all. -/
def c6s : State := initState ⟨"blank", "title", "start"⟩ 9

/-- Example state with a populated configuration entry for tab 1. -/
def c6w : State :=
  { nextId := 2
    tabs := [1]
    views := [(1, some ⟨1, ⟨"https://x.test", true, false, false, true⟩⟩)]
    tabConfigs := [(some 1, some { url := .vStr "https://x.test", title := .vStr "old" })]
    defCurrentViewId := some 1
    ipc := true
    winDestroyed := false
    crashed := false
    effects := []
    options := ⟨"blank", "title", "start"⟩
    controlWcId := 9 }

/-- Example state whose single tab 1 is the active selection. -/
def c4s : State :=
  { nextId := 2
    tabs := [1]
    views := [(1, some ⟨1, ⟨"https://x.test", false, false, false, true⟩⟩)]
    tabConfigs := [(some 1, some {})]
    defCurrentViewId := some 1
    ipc := true
    winDestroyed := false
    crashed := false
    effects := []
    options := ⟨"blank", "title", "start"⟩
    controlWcId := 9 }

/-- Example registry with order [1, 2] and fresh id 3. -/
def c3s : State :=
  { nextId := 3
    tabs := [1, 2]
    views := [(1, some ⟨1, ⟨"https://a.test", false, false, false, true⟩⟩),
              (2, some ⟨2, ⟨"https://b.test", false, false, false, true⟩⟩)]
    tabConfigs := [(some 1, some {}), (some 2, some {})]
    defCurrentViewId := some 1
    ipc := true
    winDestroyed := false
    crashed := false
    effects := []
    options := ⟨"blank", "title", "start"⟩
    controlWcId := 9 }

/-- Example registry with order [1, 2] whose active selection is tab 1. -/
def c1s : State :=
  { nextId := 3
    tabs := [1, 2]
    views := [(1, some ⟨1, ⟨"https://a.test", false, false, false, true⟩⟩),
              (2, some ⟨2, ⟨"https://b.test", false, false, false, true⟩⟩)]
    tabConfigs := [(some 1, some {}), (some 2, some {})]
    defCurrentViewId := some 1
    ipc := true
    winDestroyed := false
    crashed := false
    effects := []
    options := ⟨"blank", "title", "start"⟩
    controlWcId := 9 }

section AssocLemmas

variable {κ α : Type} [DecidableEq κ]

theorem alGet_upd_self (m : List (κ × α)) (k : κ) (v : α) :
    alGet (alUpd m k v) k = some v := by
  induction m with
  | nil => simp [alUpd, alGet]
  | cons p rest ih =>
    by_cases h : p.1 = k
    · simp [alUpd, alGet, h]
    · simp [alUpd, alGet, h, ih]

theorem alGet_upd_ne (m : List (κ × α)) (k k' : κ) (v : α) (h : k' ≠ k) :
    alGet (alUpd m k v) k' = alGet m k' := by
  induction m with
  | nil => simp [alUpd, alGet, Ne.symm h]
  | cons p rest ih =>
    by_cases hp : p.1 = k
    · subst hp
      simp [alUpd, alGet, Ne.symm h]
    · by_cases hp' : p.1 = k' <;> simp [alUpd, alGet, hp, hp', ih, h]

theorem alGet_mem {m : List (κ × α)} {k : κ} {v : α} (h : alGet m k = some v) :
    (k, v) ∈ m := by
  induction m with
  | nil => simp [alGet] at h
  | cons p rest ih =>
    by_cases hp : p.1 = k
    · simp [alGet, hp] at h
      have hpe : (k, v) = p := by
        cases p
        simp_all
      rw [hpe]
      exact List.mem_cons_self _ _
    · simp [alGet, hp] at h
      exact List.mem_cons_of_mem _ (ih h)

theorem mem_alUpd {m : List (κ × α)} {k : κ} {v : α} {p : κ × α}
    (h : p ∈ alUpd m k v) : p = (k, v) ∨ p ∈ m := by
  induction m with
  | nil => simp [alUpd] at h; simp [h]
  | cons q rest ih =>
    by_cases hq : q.1 = k
    · simp [alUpd, hq] at h
      rcases h with h | h
      · exact Or.inl h
      · exact Or.inr (List.mem_cons_of_mem _ h)
    · simp [alUpd, hq] at h
      rcases h with h | h
      · exact Or.inr (by simp [h])
      · rcases ih h with h' | h'
        · exact Or.inl h'
        · exact Or.inr (List.mem_cons_of_mem _ h')

theorem alUpd_keys_nodup {m : List (κ × α)} (k : κ) (v : α)
    (h : (m.map Prod.fst).Nodup) : ((alUpd m k v).map Prod.fst).Nodup := by
  induction m with
  | nil => simp [alUpd]
  | cons q rest ih =>
    by_cases hq : q.1 = k
    · subst hq
      simpa [alUpd] using h
    · simp only [List.map_cons, List.nodup_cons] at h
      have hk : ∀ p ∈ alUpd rest k v, p.1 ≠ q.1 := by
        intro p hp
        rcases mem_alUpd hp with h' | h'
        · subst h'
          exact fun hc => hq hc.symm
        · intro hc
          exact h.1 (hc ▸ List.mem_map_of_mem Prod.fst h')
      simp only [alUpd, hq, if_false, List.map_cons, List.nodup_cons]
      constructor
      · intro hc
        rcases List.mem_map.mp hc with ⟨p, hp, hpe⟩
        exact hk p hp hpe
      · exact ih h.2

theorem alUpd_alUpd_self (m : List (κ × α)) (k : κ) (v w : α) :
    alUpd (alUpd m k v) k w = alUpd m k w := by
  induction m with
  | nil => simp [alUpd]
  | cons q rest ih =>
    by_cases hq : q.1 = k <;> simp [alUpd, hq, ih]

end AssocLemmas

section ListLemmas

theorem idxOf_lt_length {l : List Nat} {a : Nat} (h : a ∈ l) :
    idxOf l a < l.length := by
  induction l with
  | nil => simp at h
  | cons x rest ih =>
    by_cases hx : x = a
    · simp [idxOf, hx]
    · rcases List.mem_cons.mp h with h' | h'
      · exact absurd h'.symm hx
      · simpa [idxOf, hx] using ih h'

theorem get?_idxOf {l : List Nat} {a : Nat} (h : a ∈ l) :
    l.get? (idxOf l a) = some a := by
  induction l with
  | nil => simp at h
  | cons x rest ih =>
    by_cases hx : x = a
    · simp [idxOf, hx]
    · rcases List.mem_cons.mp h with h' | h'
      · exact absurd h'.symm hx
      · simpa [idxOf, hx] using ih h'

theorem mem_insertAt {l : List Nat} {n x y : Nat} :
    y ∈ insertAt l n x ↔ y = x ∨ y ∈ l := by
  unfold insertAt
  constructor
  · intro h
    rcases List.mem_append.mp h with h' | h'
    · exact Or.inr (by
        have := List.take_append_drop n l
        exact this ▸ List.mem_append.mpr (Or.inl h'))
    · rcases List.mem_cons.mp h' with h'' | h''
      · exact Or.inl h''
      · exact Or.inr (by
          have := List.take_append_drop n l
          exact this ▸ List.mem_append.mpr (Or.inr h''))
  · intro h
    rcases h with h' | h'
    · exact List.mem_append.mpr (Or.inr (List.mem_cons.mpr (Or.inl h')))
    · have := (List.take_append_drop n l) ▸ h'
      rcases List.mem_append.mp this with h'' | h''
      · exact List.mem_append.mpr (Or.inl h'')
      · exact List.mem_append.mpr (Or.inr (List.mem_cons.mpr (Or.inr h'')))

theorem insertAt_nodup {l : List Nat} {n x : Nat} (hx : x ∉ l) (h : l.Nodup) :
    (insertAt l n x).Nodup := by
  unfold insertAt
  rw [List.nodup_middle, List.take_append_drop, List.nodup_cons]
  exact ⟨hx, h⟩

theorem spliceTabs_mem {l : List Nat} {a : Option Nat} {x y : Nat} :
    y ∈ spliceTabs l a x ↔ y = x ∨ y ∈ l := by
  unfold spliceTabs
  cases a with
  | none => simp [or_comm]
  | some v =>
    by_cases hv : v = 0
    · simp [hv, or_comm]
    · simp [hv, mem_insertAt]

theorem spliceTabs_nodup {l : List Nat} {a : Option Nat} {x : Nat}
    (hx : x ∉ l) (h : l.Nodup) : (spliceTabs l a x).Nodup := by
  unfold spliceTabs
  have happ : (l ++ [x]).Nodup := by
    have : l ++ [x] = l ++ x :: [] := rfl
    rw [this, List.nodup_middle]
    simpa [List.nodup_cons] using ⟨hx, h⟩
  cases a with
  | none => exact happ
  | some v =>
    by_cases hv : v = 0
    · simpa [hv] using happ
    · simpa [hv] using insertAt_nodup hx h

theorem filter_ne_of_not_mem {l : List Nat} {a : Nat} (h : a ∉ l) :
    l.filter (fun v => v != a) = l :=
  List.filter_eq_self.mpr (fun x hx => by
    simp [bne_iff_ne]
    intro hc
    exact h (hc ▸ hx))

theorem mem_filter_ne {l : List Nat} {a x : Nat} :
    x ∈ l.filter (fun v => v != a) ↔ x ∈ l ∧ x ≠ a := by
  simp [List.mem_filter, bne_iff_ne]

end ListLemmas

section ProjLemmas

@[simp] theorem pushEffect_tabs (s : State) (e : Effect) : (pushEffect s e).tabs = s.tabs := rfl
@[simp] theorem pushEffect_views (s : State) (e : Effect) : (pushEffect s e).views = s.views := rfl
@[simp] theorem pushEffect_tabConfigs (s : State) (e : Effect) :
    (pushEffect s e).tabConfigs = s.tabConfigs := rfl
@[simp] theorem pushEffect_nextId (s : State) (e : Effect) : (pushEffect s e).nextId = s.nextId := rfl
@[simp] theorem pushEffect_defCurrentViewId (s : State) (e : Effect) :
    (pushEffect s e).defCurrentViewId = s.defCurrentViewId := rfl
@[simp] theorem pushEffect_ipc (s : State) (e : Effect) : (pushEffect s e).ipc = s.ipc := rfl
@[simp] theorem pushEffect_crashed (s : State) (e : Effect) : (pushEffect s e).crashed = s.crashed := rfl
@[simp] theorem pushEffect_options (s : State) (e : Effect) : (pushEffect s e).options = s.options := rfl
@[simp] theorem pushEffect_effects (s : State) (e : Effect) :
    (pushEffect s e).effects = e :: s.effects := rfl

@[simp] theorem jsGetView_pushEffect (s : State) (e : Effect) (id : Nat) :
    jsGetView (pushEffect s e) id = jsGetView s id := rfl

@[simp] theorem currentView_pushEffect (s : State) (e : Effect) :
    currentView (pushEffect s e) = currentView s := rfl

end ProjLemmas

section CharLemmas

theorem jsGetView_eq_some {s : State} {id : Nat} {w : ViewS} :
    jsGetView s id = some w ↔ alGet s.views id = some (some w) := by
  unfold jsGetView
  cases h : alGet s.views id with
  | none => simp
  | some o => cases o <;> simp

theorem jsGetView_eq_none {s : State} {id : Nat} :
    jsGetView s id = none ↔ alGet s.views id = none ∨ alGet s.views id = some none := by
  unfold jsGetView
  cases h : alGet s.views id with
  | none => simp
  | some o => cases o <;> simp

theorem jsGetConf_eq_some {s : State} {id : Nat} {t : Tab} :
    jsGetConf s id = some t ↔ alGet s.tabConfigs (some id) = some (some t) := by
  unfold jsGetConf
  cases h : alGet s.tabConfigs (some id) with
  | none => simp
  | some o => cases o <;> simp

theorem assignTabConfigs_eq (s : State) (confs : List (Option Nat × Option Tab)) :
    assignTabConfigs s confs = { s with
      tabConfigs := confs
      effects := (if s.ipc then [Effect.tabsUpdate confs s.tabs] else []) ++ s.effects } := by
  unfold assignTabConfigs
  cases h : s.ipc <;> simp [pushEffect, h]

theorem destroyView_live (s : State) (id : Nat) (w : ViewS)
    (hw : jsGetView s id = some w) (hd : w.wc.destroyed = false) :
    destroyView s id = { s with
      views := alUpd s.views id none
      effects := Effect.destroyContents id :: s.effects } := by
  unfold destroyView
  rw [hw]
  simp [hd, pushEffect]

theorem destroyView_gone (s : State) (id : Nat) (hw : jsGetView s id = none) :
    destroyView s id = s := by
  unfold destroyView
  rw [hw]

theorem setCurrentView_none (s : State) : setCurrentView s none = s := rfl

theorem setCurrentView_live_some (s : State) (v : Nat) (w cv : ViewS)
    (hv : v ≠ 0) (hw : jsGetView s v = some w) (hcv : currentView s = some cv) :
    setCurrentView s (some v) = { s with
      defCurrentViewId := some v
      effects := Effect.focusContents v :: Effect.sendCurrentTab v ::
        ((if s.ipc then [Effect.activeUpdate v] else []) ++
          (Effect.relayout w.id :: Effect.addBrowserView v ::
            Effect.removeBrowserView cv.id :: s.effects)) } := by
  have halg : alGet s.views v = some (some w) := jsGetView_eq_some.mp hw
  unfold setCurrentView
  rw [hcv]
  simp only [if_neg hv, jsGetView_pushEffect]
  rw [hw]
  unfold assignCurrentId setContentBounds
  simp only [currentView, pushEffect, jsGetView, halg]
  simp [hv]
  cases h : s.ipc <;> simp [h]

theorem setCurrentView_live_nocur (s : State) (v : Nat) (w : ViewS)
    (hv : v ≠ 0) (hw : jsGetView s v = some w) (hcv : currentView s = none) :
    setCurrentView s (some v) = { s with
      defCurrentViewId := some v
      effects := Effect.focusContents v :: Effect.sendCurrentTab v ::
        ((if s.ipc then [Effect.activeUpdate v] else []) ++
          (Effect.relayout w.id :: Effect.addBrowserView v :: s.effects)) } := by
  have halg : alGet s.views v = some (some w) := jsGetView_eq_some.mp hw
  unfold setCurrentView
  rw [hcv]
  simp only [if_neg hv]
  rw [hw]
  unfold assignCurrentId setContentBounds
  simp only [currentView, pushEffect, jsGetView, halg]
  simp [hv]
  cases h : s.ipc <;> simp [h]

theorem setCurrentView_proj (s : State) (o : Option Nat) :
    (setCurrentView s o).tabs = s.tabs ∧
    (setCurrentView s o).views = s.views ∧
    (setCurrentView s o).tabConfigs = s.tabConfigs ∧
    (setCurrentView s o).nextId = s.nextId ∧
    (setCurrentView s o).ipc = s.ipc ∧
    (setCurrentView s o).options = s.options := by
  cases o with
  | none => exact ⟨rfl, rfl, rfl, rfl, rfl, rfl⟩
  | some v =>
    unfold setCurrentView
    by_cases hv : v = 0
    · simp [hv]
    · simp only [if_neg hv]
      cases hcv : currentView s with
      | some cv =>
        cases hgv : jsGetView (pushEffect s (.removeBrowserView cv.id)) v with
        | some w =>
          simp only [hgv, assignCurrentId, setContentBounds, pushEffect]
          repeat' split
          all_goals simp
        | none => simp [hgv]
      | none =>
        cases hgv : jsGetView s v with
        | some w =>
          simp only [hgv, assignCurrentId, setContentBounds, pushEffect]
          repeat' split
          all_goals simp
        | none => simp [hgv]

theorem destroyView_proj (s : State) (id : Nat) :
    (destroyView s id).tabs = s.tabs ∧
    (destroyView s id).tabConfigs = s.tabConfigs ∧
    (destroyView s id).nextId = s.nextId ∧
    (destroyView s id).defCurrentViewId = s.defCurrentViewId ∧
    (destroyView s id).ipc = s.ipc ∧
    (destroyView s id).crashed = s.crashed ∧
    (destroyView s id).options = s.options := by
  unfold destroyView
  repeat' split
  all_goals simp [pushEffect]

theorem loadURL_proj (s : State) (u : String) :
    (loadURL s u).tabs = s.tabs ∧
    (loadURL s u).tabConfigs = s.tabConfigs ∧
    (loadURL s u).nextId = s.nextId ∧
    (loadURL s u).defCurrentViewId = s.defCurrentViewId ∧
    (loadURL s u).ipc = s.ipc ∧
    (loadURL s u).crashed = s.crashed ∧
    (loadURL s u).options = s.options := by
  unfold loadURL
  by_cases hu : u = ""
  · simp [hu]
  · simp only [if_neg hu]
    cases hd : s.defCurrentViewId with
    | none => simp [hd]
    | some k =>
      by_cases hk : k = 0
      · simp [hd, hk]
      · simp only [hd, if_neg hk]
        cases hv : jsGetView s k with
        | none => simp [hd, hv]
        | some v =>
          by_cases hm : v.wc.marks
          · simp [hd, hv, hm]
          · simp only [hv, hm, Bool.false_eq_true, if_false]
            unfold setContentBounds
            repeat' split
            all_goals simp [hd, pushEffect]

theorem loadURL_views (s : State) (u : String) :
    (loadURL s u).views = s.views ∨
    ∃ k v, s.defCurrentViewId = some k ∧ jsGetView s k = some v ∧
      (loadURL s u).views =
        alUpd s.views k (some { v with wc := { v.wc with marks := true } }) := by
  unfold loadURL
  by_cases hu : u = ""
  · simp [hu]
  · simp only [if_neg hu]
    cases hd : s.defCurrentViewId with
    | none => simp [hd]
    | some k =>
      by_cases hk : k = 0
      · simp [hd, hk]
      · simp only [hd, if_neg hk]
        cases hv : jsGetView s k with
        | none => simp [hv]
        | some v =>
          by_cases hm : v.wc.marks
          · simp [hv, hm]
          · right
            refine ⟨k, v, rfl, hv, ?_⟩
            simp only [hv, hm, Bool.false_eq_true, if_false]
            unfold setContentBounds
            repeat' split
            all_goals simp [pushEffect]

@[simp] theorem assignTabConfigs_tabs (s : State) (c : List (Option Nat × Option Tab)) :
    (assignTabConfigs s c).tabs = s.tabs := by
  rw [assignTabConfigs_eq]

@[simp] theorem assignTabConfigs_views (s : State) (c : List (Option Nat × Option Tab)) :
    (assignTabConfigs s c).views = s.views := by
  rw [assignTabConfigs_eq]

@[simp] theorem assignTabConfigs_tabConfigs (s : State) (c : List (Option Nat × Option Tab)) :
    (assignTabConfigs s c).tabConfigs = c := by
  rw [assignTabConfigs_eq]

@[simp] theorem assignTabConfigs_nextId (s : State) (c : List (Option Nat × Option Tab)) :
    (assignTabConfigs s c).nextId = s.nextId := by
  rw [assignTabConfigs_eq]

@[simp] theorem assignTabConfigs_defCurrentViewId (s : State) (c : List (Option Nat × Option Tab)) :
    (assignTabConfigs s c).defCurrentViewId = s.defCurrentViewId := by
  rw [assignTabConfigs_eq]

@[simp] theorem assignTabConfigs_ipc (s : State) (c : List (Option Nat × Option Tab)) :
    (assignTabConfigs s c).ipc = s.ipc := by
  rw [assignTabConfigs_eq]

@[simp] theorem assignTabConfigs_crashed (s : State) (c : List (Option Nat × Option Tab)) :
    (assignTabConfigs s c).crashed = s.crashed := by
  rw [assignTabConfigs_eq]

@[simp] theorem assignTabConfigs_options (s : State) (c : List (Option Nat × Option Tab)) :
    (assignTabConfigs s c).options = s.options := by
  rw [assignTabConfigs_eq]

@[simp] theorem setCurrentView_tabs (s : State) (o : Option Nat) :
    (setCurrentView s o).tabs = s.tabs := (setCurrentView_proj s o).1

@[simp] theorem setCurrentView_views (s : State) (o : Option Nat) :
    (setCurrentView s o).views = s.views := (setCurrentView_proj s o).2.1

@[simp] theorem setCurrentView_tabConfigs (s : State) (o : Option Nat) :
    (setCurrentView s o).tabConfigs = s.tabConfigs := (setCurrentView_proj s o).2.2.1

@[simp] theorem setCurrentView_nextId (s : State) (o : Option Nat) :
    (setCurrentView s o).nextId = s.nextId := (setCurrentView_proj s o).2.2.2.1

@[simp] theorem setCurrentView_ipc (s : State) (o : Option Nat) :
    (setCurrentView s o).ipc = s.ipc := (setCurrentView_proj s o).2.2.2.2.1

@[simp] theorem setCurrentView_options (s : State) (o : Option Nat) :
    (setCurrentView s o).options = s.options := (setCurrentView_proj s o).2.2.2.2.2

@[simp] theorem destroyView_tabs (s : State) (id : Nat) :
    (destroyView s id).tabs = s.tabs := (destroyView_proj s id).1

@[simp] theorem destroyView_tabConfigs (s : State) (id : Nat) :
    (destroyView s id).tabConfigs = s.tabConfigs := (destroyView_proj s id).2.1

@[simp] theorem destroyView_nextId (s : State) (id : Nat) :
    (destroyView s id).nextId = s.nextId := (destroyView_proj s id).2.2.1

@[simp] theorem destroyView_defCurrentViewId (s : State) (id : Nat) :
    (destroyView s id).defCurrentViewId = s.defCurrentViewId := (destroyView_proj s id).2.2.2.1

@[simp] theorem destroyView_ipc (s : State) (id : Nat) :
    (destroyView s id).ipc = s.ipc := (destroyView_proj s id).2.2.2.2.1

@[simp] theorem destroyView_crashed (s : State) (id : Nat) :
    (destroyView s id).crashed = s.crashed := (destroyView_proj s id).2.2.2.2.2.1

@[simp] theorem destroyView_options (s : State) (id : Nat) :
    (destroyView s id).options = s.options := (destroyView_proj s id).2.2.2.2.2.2

@[simp] theorem loadURL_tabs (s : State) (u : String) :
    (loadURL s u).tabs = s.tabs := (loadURL_proj s u).1

@[simp] theorem loadURL_tabConfigs (s : State) (u : String) :
    (loadURL s u).tabConfigs = s.tabConfigs := (loadURL_proj s u).2.1

@[simp] theorem loadURL_nextId (s : State) (u : String) :
    (loadURL s u).nextId = s.nextId := (loadURL_proj s u).2.2.1

@[simp] theorem loadURL_defCurrentViewId (s : State) (u : String) :
    (loadURL s u).defCurrentViewId = s.defCurrentViewId := (loadURL_proj s u).2.2.2.1

@[simp] theorem loadURL_ipc (s : State) (u : String) :
    (loadURL s u).ipc = s.ipc := (loadURL_proj s u).2.2.2.2.1

@[simp] theorem loadURL_crashed (s : State) (u : String) :
    (loadURL s u).crashed = s.crashed := (loadURL_proj s u).2.2.2.2.2.1

@[simp] theorem loadURL_options (s : State) (u : String) :
    (loadURL s u).options = s.options := (loadURL_proj s u).2.2.2.2.2.2

theorem setCurrentView_defCurrentViewId (s : State) (v : Nat) (hv : ¬v = 0)
    (hw : (jsGetView s v).isSome = true) :
    (setCurrentView s (some v)).defCurrentViewId = some v := by
  obtain ⟨w, hw'⟩ := Option.isSome_iff_exists.mp hw
  cases hcv : currentView s with
  | some cv => rw [setCurrentView_live_some s v w cv hv hw' hcv]
  | none => rw [setCurrentView_live_nocur s v w hv hw' hcv]

theorem setCurrentView_crashed_live (s : State) (v : Nat) (hv : ¬v = 0)
    (hw : (jsGetView s v).isSome = true) :
    (setCurrentView s (some v)).crashed = s.crashed := by
  obtain ⟨w, hw'⟩ := Option.isSome_iff_exists.mp hw
  cases hcv : currentView s with
  | some cv => rw [setCurrentView_live_some s v w cv hv hw' hcv]
  | none => rw [setCurrentView_live_nocur s v w hv hw' hcv]

end CharLemmas

section NewTabLemmas

theorem spliceTabs_none (l : List Nat) (x : Nat) : spliceTabs l none x = l ++ [x] := rfl

theorem spliceTabs_some_zero (l : List Nat) (x : Nat) :
    spliceTabs l (some 0) x = l ++ [x] := by simp [spliceTabs]

theorem spliceTabs_some_mem {l : List Nat} {v : Nat} (x : Nat) (hv : v ≠ 0) (hm : v ∈ l) :
    spliceTabs l (some v) x = insertAt l (idxOf l v + 1) x := by
  have ht : ((idxOf l v : Int) + 1).toNat = idxOf l v + 1 := by omega
  simp [spliceTabs, hv, jsIndexOf, hm, ht]

theorem spliceTabs_some_absent {l : List Nat} {v : Nat} (x : Nat) (hv : v ≠ 0) (hm : v ∉ l) :
    spliceTabs l (some v) x = x :: l := by
  simp [spliceTabs, hv, jsIndexOf, hm, insertAt]

theorem newTab_tabs (s : State) (u : Option String) (a : Option Nat) :
    (newTab s u a).tabs = spliceTabs s.tabs a s.nextId := by
  simp [newTab, setTabConfig]

theorem newTab_nextId (s : State) (u : Option String) (a : Option Nat) :
    (newTab s u a).nextId = s.nextId + 1 := by
  simp [newTab, setTabConfig]

theorem newTab_ipc (s : State) (u : Option String) (a : Option Nat) :
    (newTab s u a).ipc = s.ipc := by
  simp [newTab, setTabConfig]

theorem newTab_options (s : State) (u : Option String) (a : Option Nat) :
    (newTab s u a).options = s.options := by
  simp [newTab, setTabConfig]

theorem newTab_defCurrentViewId (s : State) (u : Option String) (a : Option Nat)
    (h0 : 0 < s.nextId) :
    (newTab s u a).defCurrentViewId = some s.nextId := by
  have hnz : ¬s.nextId = 0 := h0.ne'
  simp [newTab, setTabConfig, setCurrentView_defCurrentViewId, jsGetView, alGet_upd_self, hnz]

theorem newTab_crashed (s : State) (u : Option String) (a : Option Nat)
    (h0 : 0 < s.nextId) :
    (newTab s u a).crashed = s.crashed := by
  have hnz : ¬s.nextId = 0 := h0.ne'
  simp [newTab, setTabConfig, setCurrentView_crashed_live, jsGetView, alGet_upd_self, hnz]

theorem newTab_views (s : State) (u : Option String) (a : Option Nat)
    (h0 : 0 < s.nextId) :
    ∃ w : ViewS, w.id = s.nextId ∧ w.wc.destroyed = false ∧
      (newTab s u a).views = alUpd s.views s.nextId (some w) := by
  have hnz : ¬s.nextId = 0 := h0.ne'
  by_cases hu : jsOr (u.getD "") s.options.blankPage = ""
  · refine ⟨freshView s.nextId, rfl, rfl, ?_⟩
    simp [newTab, setTabConfig, loadURL, hu]
  · refine ⟨⟨s.nextId, ⟨"", false, false, false, true⟩⟩, rfl, rfl, ?_⟩
    simp [newTab, setTabConfig, loadURL, setContentBounds, currentView, hu,
      setCurrentView_defCurrentViewId, jsGetView, alGet_upd_self, hnz, freshView,
      alUpd_alUpd_self]

theorem newTab_tabConfigs (s : State) (u : Option String) (a : Option Nat) :
    ∃ t : Tab, (newTab s u a).tabConfigs = alUpd s.tabConfigs (some s.nextId) (some t) := by
  simp only [newTab, setTabConfig, pushEffect_tabConfigs, assignTabConfigs_tabConfigs,
    loadURL_tabConfigs, setCurrentView_tabConfigs]
  exact ⟨_, rfl⟩

theorem newTab_effect_head (s : State) (u : Option String) (a : Option Nat)
    (hk : ∀ k, s.defCurrentViewId = some k → k ≠ s.nextId) :
    (newTab s u a).effects.head? = some (.emitNewTab s.nextId u (currentViewIds s)) := by
  have hb : currentViewIds
      { s with nextId := s.nextId + 1
               tabs := spliceTabs s.tabs a s.nextId
               views := alUpd s.views s.nextId (some (freshView s.nextId)) } =
      currentViewIds s := by
    unfold currentViewIds currentView
    cases hd : s.defCurrentViewId with
    | none => simp [hd]
    | some k =>
      have hkn : k ≠ s.nextId := hk k hd
      by_cases hk0 : k = 0
      · simp [hd, hk0]
      · simp [hd, hk0, jsGetView, alGet_upd_ne _ _ _ _ hkn]
  simp [newTab, setTabConfig, pushEffect, hb]

theorem newTab_currentViewIds (s : State) (u : Option String) (a : Option Nat)
    (h0 : 0 < s.nextId) :
    currentViewIds (newTab s u a) = some s.nextId := by
  obtain ⟨w, hwid, _, hviews⟩ := newTab_views s u a h0
  unfold currentViewIds currentView
  rw [newTab_defCurrentViewId s u a h0]
  simp [h0.ne', jsGetView, hviews, alGet_upd_self, hwid]

end NewTabLemmas

section CloseTabLemmas

theorem closeTabRest_gone (s : State) (id : Nat) (hv : jsGetView s id = none) :
    closeTabRest s id = { s with
      tabs := s.tabs.filter (fun v => v != id)
      tabConfigs := alUpd s.tabConfigs (some id) none
      effects := Effect.emitCloseTab id ::
        ((if s.ipc then
            [Effect.tabsUpdate (alUpd s.tabConfigs (some id) none)
              (s.tabs.filter (fun v => v != id))]
          else []) ++ s.effects) } := by
  simp only [closeTabRest, assignTabConfigs_eq]
  rw [destroyView_gone _ _ (by simpa [jsGetView] using hv)]
  cases h : s.ipc <;> simp [h, pushEffect]

theorem closeTabRest_live (s : State) (id : Nat) (w : ViewS)
    (hv : jsGetView s id = some w) (hd : w.wc.destroyed = false) :
    closeTabRest s id = { s with
      tabs := s.tabs.filter (fun v => v != id)
      views := alUpd s.views id none
      tabConfigs := alUpd s.tabConfigs (some id) none
      effects := Effect.emitCloseTab id :: Effect.destroyContents id ::
        ((if s.ipc then
            [Effect.tabsUpdate (alUpd s.tabConfigs (some id) none)
              (s.tabs.filter (fun v => v != id))]
          else []) ++ s.effects) } := by
  simp only [closeTabRest, assignTabConfigs_eq]
  rw [destroyView_live _ _ w (by simpa [jsGetView] using hv) hd]
  cases h : s.ipc <;> simp [h, pushEffect]

theorem closeTab_not_current (s : State) (id : Nat)
    (hne : ¬s.defCurrentViewId = some id) (hc : s.crashed = false) :
    closeTab s id = closeTabRest s id := by
  unfold closeTab
  simp [hne, hc]

end CloseTabLemmas

section InvLemmas

theorem alGet_eq_of_mem {κ α : Type} [DecidableEq κ] {m : List (κ × α)} {p : κ × α}
    (hnd : (m.map Prod.fst).Nodup) (hp : p ∈ m) : alGet m p.1 = some p.2 := by
  induction m with
  | nil => simp at hp
  | cons q rest ih =>
    simp only [List.map_cons, List.nodup_cons] at hnd
    rcases List.mem_cons.mp hp with h | h
    · subst h
      simp [alGet]
    · have hne : q.1 ≠ p.1 := by
        intro hc
        exact hnd.1 (hc ▸ List.mem_map_of_mem Prod.fst h)
      simp [alGet, hne]
      exact ih hnd.2 h

theorem mem_alUpd_keys_nodup {κ α : Type} [DecidableEq κ] {m : List (κ × α)}
    {k : κ} {v : α} {p : κ × α} (hnd : (m.map Prod.fst).Nodup)
    (h : p ∈ alUpd m k v) : p = (k, v) ∨ (p ∈ m ∧ p.1 ≠ k) := by
  induction m with
  | nil =>
    simp [alUpd] at h
    simp [h]
  | cons q rest ih =>
    simp only [List.map_cons, List.nodup_cons] at hnd
    by_cases hq : q.1 = k
    · simp only [alUpd, hq, if_true] at h
      rcases List.mem_cons.mp h with h' | h'
      · exact Or.inl h'
      · right
        have hne : p.1 ≠ q.1 := by
          intro hc
          exact hnd.1 (hc ▸ List.mem_map_of_mem Prod.fst h')
        exact ⟨List.mem_cons_of_mem _ h', hq ▸ hne⟩
    · simp only [alUpd, hq, if_false] at h
      rcases List.mem_cons.mp h with h' | h'
      · subst h'
        exact Or.inr ⟨List.mem_cons_self _ _, hq⟩
      · rcases ih hnd.2 h' with h'' | h''
        · exact Or.inl h''
        · exact Or.inr ⟨List.mem_cons_of_mem _ h''.1, h''.2⟩

theorem viewEntryOkB_live {k : Nat} {v : ViewS} (h : viewEntryOkB (k, some v) = true) :
    v.wc.destroyed = false ∧ v.id = k := by
  simpa [viewEntryOkB, Bool.and_eq_true, Bool.not_eq_true'] using h

theorem currIdOkB_iff {s : State} :
    currIdOkB s = true ↔ ∀ k, s.defCurrentViewId = some k → k < s.nextId := by
  unfold currIdOkB
  cases h : s.defCurrentViewId <;> simp

/-- A listed id always has a live, not-destroyed view recording its id. -/
theorem live_of_mem_tabs {s : State} {id : Nat} (hInv : Inv s) (hm : id ∈ s.tabs) :
    ∃ w, jsGetView s id = some w ∧ w.wc.destroyed = false ∧ w.id = id := by
  obtain ⟨-, h2, -, -, -, h6, -, -, -, -⟩ := hInv
  obtain ⟨w, hw⟩ := Option.isSome_iff_exists.mp (h2 id hm)
  have hmem := alGet_mem (jsGetView_eq_some.mp hw)
  obtain ⟨hd, hid⟩ := viewEntryOkB_live (h6 _ hmem)
  exact ⟨w, hw, hd, hid⟩

/-- An id outside the order has no live view. -/
theorem not_live_of_not_mem {s : State} {id : Nat} (hInv : Inv s) (hm : id ∉ s.tabs) :
    jsGetView s id = none := by
  obtain ⟨-, -, h3, -, -, -, -, -, -, -⟩ := hInv
  cases hv : jsGetView s id with
  | none => rfl
  | some w =>
    exact absurd (h3 _ (alGet_mem (jsGetView_eq_some.mp hv)) (by simp)) hm

theorem jsGetView_eq_of_views {s s' : State} (h : s'.views = s.views) (id : Nat) :
    jsGetView s' id = jsGetView s id := by
  unfold jsGetView
  rw [h]

theorem jsGetConf_eq_of_tabConfigs {s s' : State} (h : s'.tabConfigs = s.tabConfigs) (id : Nat) :
    jsGetConf s' id = jsGetConf s id := by
  unfold jsGetConf
  rw [h]

theorem jsAt_mem {l : List Nat} {n : Int} {x : Nat} (h : jsAt l n = some x) : x ∈ l := by
  unfold jsAt at h
  split at h
  · exact absurd h (by simp)
  · exact List.get?_mem h

end InvLemmas

section InvPreservation

theorem inv_newTab (s : State) (u : Option String) (a : Option Nat)
    (hInv : Inv s) : Inv (newTab s u a) := by
  obtain ⟨h1, h2, h3, h4, h5, h6, h7, h8, h9, h10⟩ := hInv
  obtain ⟨w, hwid, hwd, hviews⟩ := newTab_views s u a h8
  obtain ⟨t, hconfigs⟩ := newTab_tabConfigs s u a
  have htabs := newTab_tabs s u a
  have hnext := newTab_nextId s u a
  have hdef := newTab_defCurrentViewId s u a h8
  have hcr := newTab_crashed s u a h8
  have hfresh : s.nextId ∉ s.tabs := fun hm => absurd (h5 _ hm).2 (lt_irrefl _)
  refine ⟨?_, ?_, ?_, ?_, ?_, ?_, ?_, ?_, ?_, ?_⟩
  · rw [htabs]
    exact spliceTabs_nodup hfresh h1
  · intro id hm
    rw [htabs] at hm
    rcases spliceTabs_mem.mp hm with h | h
    · subst h
      simp [jsGetView, hviews, alGet_upd_self]
    · have hne : id ≠ s.nextId := fun hc => absurd (hc ▸ (h5 _ h).2) (lt_irrefl _)
      simpa [jsGetView, hviews, alGet_upd_ne _ _ _ _ hne] using h2 id h
  · intro p hp hs
    rw [hviews] at hp
    rw [htabs]
    rcases mem_alUpd hp with h | h
    · subst h
      exact spliceTabs_mem.mpr (Or.inl rfl)
    · exact spliceTabs_mem.mpr (Or.inr (h3 p h hs))
  · intro id hm
    rw [htabs] at hm
    rcases spliceTabs_mem.mp hm with h | h
    · subst h
      simp [jsGetConf, hconfigs, alGet_upd_self]
    · have hne : (some id : Option Nat) ≠ some s.nextId := by
        simp
        exact fun hc => absurd (hc ▸ (h5 _ h).2) (lt_irrefl _)
      simpa [jsGetConf, hconfigs, alGet_upd_ne _ _ _ _ hne] using h4 id h
  · intro id hm
    rw [htabs] at hm
    rw [hnext]
    rcases spliceTabs_mem.mp hm with h | h
    · subst h
      exact ⟨h8, Nat.lt_succ_self _⟩
    · exact ⟨(h5 _ h).1, Nat.lt_succ_of_lt (h5 _ h).2⟩
  · intro p hp
    rw [hviews] at hp
    rcases mem_alUpd hp with h | h
    · subst h
      simp [viewEntryOkB, hwd, hwid]
    · exact h6 p h
  · rw [hviews]
    exact alUpd_keys_nodup _ _ h7
  · rw [hnext]
    exact Nat.succ_pos _
  · rw [hcr]
    exact h9
  · rw [currIdOkB_iff]
    intro k hk
    rw [hdef] at hk
    rw [hnext]
    simpa using Option.some_injective _ hk ▸ Nat.lt_succ_self s.nextId

theorem inv_closeTabRest (s : State) (id : Nat) (hInv : Inv s) :
    Inv (closeTabRest s id) := by
  obtain ⟨h1, h2, h3, h4, h5, h6, h7, h8, h9, h10⟩ := hInv
  cases hv : jsGetView s id with
  | none =>
    rw [closeTabRest_gone s id hv]
    refine ⟨?_, ?_, ?_, ?_, ?_, ?_, ?_, ?_, ?_, ?_⟩
    · exact List.Nodup.filter _ h1
    · intro i hm
      exact h2 i (mem_filter_ne.mp hm).1
    · intro p hp hs
      have hmem := h3 p hp hs
      refine mem_filter_ne.mpr ⟨hmem, ?_⟩
      intro hc
      obtain ⟨v, hv'⟩ := Option.isSome_iff_exists.mp hs
      have := alGet_eq_of_mem h7 hp
      rw [hc, hv'] at this
      rw [jsGetView_eq_none] at hv
      rcases hv with hv | hv <;> rw [this] at hv <;> simp at hv
    · intro i hm
      obtain ⟨hm', hne⟩ := mem_filter_ne.mp hm
      have hne' : (some i : Option Nat) ≠ some id := by simpa using hne
      simpa [jsGetConf, alGet_upd_ne _ _ _ _ hne'] using h4 i hm'
    · intro i hm
      exact h5 i (mem_filter_ne.mp hm).1
    · exact h6
    · exact h7
    · exact h8
    · exact h9
    · rw [currIdOkB_iff] at h10 ⊢
      exact h10
  | some w =>
    have hwd : w.wc.destroyed = false :=
      (viewEntryOkB_live (h6 _ (alGet_mem (jsGetView_eq_some.mp hv)))).1
    rw [closeTabRest_live s id w hv hwd]
    refine ⟨?_, ?_, ?_, ?_, ?_, ?_, ?_, ?_, ?_, ?_⟩
    · exact List.Nodup.filter _ h1
    · intro i hm
      obtain ⟨hm', hne⟩ := mem_filter_ne.mp hm
      simpa [jsGetView, alGet_upd_ne _ _ _ _ hne] using h2 i hm'
    · intro p hp hs
      rcases mem_alUpd_keys_nodup h7 hp with h | ⟨hmem, hne⟩
      · subst h
        simp at hs
      · exact mem_filter_ne.mpr ⟨h3 p hmem hs, hne⟩
    · intro i hm
      obtain ⟨hm', hne⟩ := mem_filter_ne.mp hm
      have hne' : (some i : Option Nat) ≠ some id := by simpa using hne
      simpa [jsGetConf, alGet_upd_ne _ _ _ _ hne'] using h4 i hm'
    · intro i hm
      exact h5 i (mem_filter_ne.mp hm).1
    · intro p hp
      rcases mem_alUpd hp with h | h
      · subst h
        simp [viewEntryOkB]
      · exact h6 p h
    · exact alUpd_keys_nodup _ _ h7
    · exact h8
    · exact h9
    · rw [currIdOkB_iff] at h10 ⊢
      exact h10

theorem inv_closeTab (s : State) (id : Nat) (hInv : Inv s) : Inv (closeTab s id) := by
  have h9 : s.crashed = false := hInv.2.2.2.2.2.2.2.2.1
  by_cases hcur : s.defCurrentViewId = some id
  · unfold closeTab
    simp only [hcur, if_pos rfl, ite_true]
    cases hat : jsAt s.tabs
        (if jsIndexOf s.tabs id = (s.tabs.length : Int) - 1 then jsIndexOf s.tabs id - 1
         else jsIndexOf s.tabs id + 1) with
    | none =>
      rw [setCurrentView_none]
      simp only [h9, Bool.false_eq_true, if_false]
      exact inv_closeTabRest s id hInv
    | some p =>
      have hpm : p ∈ s.tabs := jsAt_mem hat
      obtain ⟨wp, hwp, -, -⟩ := live_of_mem_tabs hInv hpm
      have hp0 : ¬p = 0 := (hInv.2.2.2.2.1 p hpm).1.ne'
      have hsome : (jsGetView s p).isSome = true := by simp [hwp]
      have hcr : (setCurrentView s (some p)).crashed = false := by
        rw [setCurrentView_crashed_live s p hp0 hsome]
        exact h9
      rw [hcr]
      simp only [Bool.false_eq_true, if_false]
      apply inv_closeTabRest
      obtain ⟨h1, h2, h3, h4, h5, h6, h7, h8, -, -⟩ := hInv
      have hViews := setCurrentView_views s (some p)
      have hTabs := setCurrentView_tabs s (some p)
      have hConfs := setCurrentView_tabConfigs s (some p)
      have hNext := setCurrentView_nextId s (some p)
      have hDef := setCurrentView_defCurrentViewId s p hp0 hsome
      refine ⟨?_, ?_, ?_, ?_, ?_, ?_, ?_, ?_, hcr, ?_⟩
      · rw [hTabs]; exact h1
      · intro i hm
        rw [hTabs] at hm
        rw [jsGetView_eq_of_views hViews]
        exact h2 i hm
      · intro q hq hs
        rw [hViews] at hq
        rw [hTabs]
        exact h3 q hq hs
      · intro i hm
        rw [hTabs] at hm
        rw [jsGetConf_eq_of_tabConfigs hConfs]
        exact h4 i hm
      · intro i hm
        rw [hTabs] at hm
        rw [hNext]
        exact h5 i hm
      · intro q hq
        rw [hViews] at hq
        exact h6 q hq
      · rw [hViews]; exact h7
      · rw [hNext]; exact h8
      · rw [currIdOkB_iff]
        intro k hk
        rw [hDef] at hk
        rw [hNext]
        exact Option.some_injective _ hk ▸ (h5 p hpm).2
  · rw [closeTab_not_current s id hcur h9]
    exact inv_closeTabRest s id hInv

theorem inv_initState (opts : Options) (controlId : Nat) :
    Inv (initState opts controlId) := by
  refine ⟨?_, ?_, ?_, ?_, ?_, ?_, ?_, ?_, ?_, ?_⟩ <;>
    simp [initState, currIdOkB]

theorem inv_applyOps (s : State) (ops : List TabOp) (hInv : Inv s) :
    Inv (applyOps s ops) := by
  induction ops generalizing s with
  | nil => exact hInv
  | cons op rest ih =>
    cases op with
    | openTab u a => exact ih _ (inv_newTab s u a hInv)
    | close id => exact ih _ (inv_closeTab s id hInv)

end InvPreservation

section ClaimC7


/-- C7: every inbound channel command runs its body only when the sender
is this window's own control webContents and the window is alive; any
other sender (or a destroyed window) leaves the state unchanged. -/
theorem handleMsg_sender_guard (s : State) (senderId : Nat) (m : Msg) :
    ((senderId ≠ s.controlWcId ∨ s.winDestroyed = true) → handleMsg s senderId m = s) ∧
    (senderId = s.controlWcId → s.winDestroyed = false →
      handleMsg s senderId m = handleRaw s m) := by
  constructor
  · intro h
    unfold handleMsg
    rcases h with h | h
    · simp [h]
    · simp [h]
  · intro h hw
    unfold handleMsg
    simp [h, hw]

/-- Witness: a foreign sender's switch-tab command is ignored, and the
matching sender's command dispatches to the raw listener. -/
theorem handleMsg_sender_guard_w :
    handleMsg c7s 5 (.switchTabMsg 2) = c7s ∧
    handleMsg c7s 9 (.switchTabMsg 2) = handleRaw c7s (.switchTabMsg 2) :=
  ⟨(handleMsg_sender_guard c7s 5 (.switchTabMsg 2)).1 (Or.inl (by decide)),
   (handleMsg_sender_guard c7s 9 (.switchTabMsg 2)).2 (by decide) (by decide)⟩

end ClaimC7

section ClaimC8


/-- Counterexample to C8: the action name focus is none of reload, stop,
goBack or goForward, yet the handler invokes it on the active web
contents instead of logging a warning and leaving the state unchanged. -/
theorem webContentsAct_focus_invoked_cex :
    webContentsAct c8s "focus" ≠ c8s ∧
    Effect.invokeAction "focus" ∈ (webContentsAct c8s "focus").effects ∧
    Effect.warnInvalidAction "focus" ∉ (webContentsAct c8s "focus").effects := by
  decide

/-- C8 (amended): an action name is logged as a warning and ignored
exactly when it does not resolve to a function on the web contents; any
name that does resolve to a function (focus, destroy, and so on, beyond
the four documented commands) is invoked. -/
theorem webContentsAct_unknown_warn (s : State) (name : String)
    (h : name ∉ wcActionNames) :
    webContentsAct s name = pushEffect s (.warnInvalidAction name) := by
  unfold webContentsAct
  cases hc : currentWebContents s with
  | none => rfl
  | some wc => simp [h]

/-- Witness for the amended C8 at a name resolving to no function. -/
theorem webContentsAct_unknown_warn_w :
    webContentsAct c8s "zzz" = pushEffect c8s (.warnInvalidAction "zzz") :=
  webContentsAct_unknown_warn c8s "zzz" (by decide)

end ClaimC8

section ClaimC10


/-- C10: a reload act command is silently skipped (no call, no warning)
when the active web contents has an empty URL; every other name that
resolves to a function is invoked unconditionally. -/
theorem webContentsAct_reload_empty_skip (s : State) (wc : WebContentsS)
    (hwc : currentWebContents s = some wc) :
    (wc.url = "" → webContentsAct s "reload" = s) ∧
    (∀ name, name ∈ wcActionNames → ¬(name = "reload" ∧ wc.url = "") →
      webContentsAct s name = pushEffect s (.invokeAction name)) := by
  constructor
  · intro hu
    unfold webContentsAct
    rw [hwc]
    simp [hu, wcActionNames]
  · intro name hn hcond
    unfold webContentsAct
    rw [hwc]
    simp [hn, hcond]

/-- Witness: on the empty-URL state reload is a no-op while stop is
invoked. -/
theorem webContentsAct_reload_empty_skip_w :
    webContentsAct c10s "reload" = c10s ∧
    webContentsAct c10s "stop" = pushEffect c10s (.invokeAction "stop") := by
  have h := webContentsAct_reload_empty_skip c10s ⟨"", true, false, false, true⟩ rfl
  exact ⟨h.1 rfl, h.2 "stop" (by decide) (by decide)⟩

end ClaimC10

section ClaimC5


/-- Counterexample to C5: closing the absent id 5 is not a no-op — the
mapping gains a null tombstone for 5 and the close notification is
emitted. -/
theorem closeTab_absent_not_noop_cex :
    closeTab c5s 5 ≠ c5s ∧
    Effect.emitCloseTab 5 ∈ (closeTab c5s 5).effects ∧
    alGet (closeTab c5s 5).tabConfigs (some 5) = some none := by
  decide

/-- C5 (amended): closing an id that is absent from the order (and is not
the stored current id) leaves the order, the views and the active
selection unchanged, but still tombstones the id in the mapping, pushes a
registry update and emits the close notification. -/
theorem closeTab_absent_effects (s : State) (id : Nat) (hInv : Inv s)
    (hmem : id ∉ s.tabs) (hcur : ¬s.defCurrentViewId = some id) :
    closeTab s id = { s with
      tabConfigs := alUpd s.tabConfigs (some id) none
      effects := Effect.emitCloseTab id ::
        ((if s.ipc then
            [Effect.tabsUpdate (alUpd s.tabConfigs (some id) none) s.tabs]
          else []) ++ s.effects) } := by
  have h9 : s.crashed = false := hInv.2.2.2.2.2.2.2.2.1
  rw [closeTab_not_current s id hcur h9]
  rw [closeTabRest_gone s id (not_live_of_not_mem hInv hmem)]
  rw [filter_ne_of_not_mem hmem]

/-- Witness for the amended C5 on the concrete registry. -/
theorem closeTab_absent_effects_w :
    closeTab c5s 5 = { c5s with
      tabConfigs := alUpd c5s.tabConfigs (some 5) none
      effects := Effect.emitCloseTab 5 ::
        ((if c5s.ipc then
            [Effect.tabsUpdate (alUpd c5s.tabConfigs (some 5) none) c5s.tabs]
          else []) ++ c5s.effects) } :=
  closeTab_absent_effects c5s 5 (by decide) (by decide) (by decide)

end ClaimC5

section ClaimC9


/-- C9: closing a present, non-active tab leaves the active selection
untouched and emits no detach, attach or active-change notification; it
only removes that id from the order, tombstones its mapping entry to
null, destroys its surface and emits close-tab (plus the registry update
through the tabConfigs setter). -/
theorem closeTab_inactive_frame (s : State) (id : Nat) (hInv : Inv s)
    (hmem : id ∈ s.tabs) (hcur : ¬s.defCurrentViewId = some id) :
    closeTab s id = { s with
      tabs := s.tabs.filter (fun v => v != id)
      views := alUpd s.views id none
      tabConfigs := alUpd s.tabConfigs (some id) none
      effects := Effect.emitCloseTab id :: Effect.destroyContents id ::
        ((if s.ipc then
            [Effect.tabsUpdate (alUpd s.tabConfigs (some id) none)
              (s.tabs.filter (fun v => v != id))]
          else []) ++ s.effects) } := by
  have h9 : s.crashed = false := hInv.2.2.2.2.2.2.2.2.1
  obtain ⟨w, hw, hwd, -⟩ := live_of_mem_tabs hInv hmem
  rw [closeTab_not_current s id hcur h9]
  exact closeTabRest_live s id w hw hwd

/-- Witness for C9: closing non-active tab 2 of the concrete registry. -/
theorem closeTab_inactive_frame_w :
    closeTab c9s 2 = { c9s with
      tabs := c9s.tabs.filter (fun v => v != 2)
      views := alUpd c9s.views 2 none
      tabConfigs := alUpd c9s.tabConfigs (some 2) none
      effects := Effect.emitCloseTab 2 :: Effect.destroyContents 2 ::
        ((if c9s.ipc then
            [Effect.tabsUpdate (alUpd c9s.tabConfigs (some 2) none)
              (c9s.tabs.filter (fun v => v != 2))]
          else []) ++ c9s.effects) } :=
  closeTab_inactive_frame c9s 2 (by decide) (by decide) (by decide)

end ClaimC9

section MergeLemmas

theorem getField_setField (t : Tab) (f g : TabField) (v : JVal) :
    getField (setField t f v) g = if f = g then v else getField t g := by
  cases f <;> cases g <;> simp [getField, setField]

theorem lastKv_acc (rest : List (TabField × JVal)) (f : TabField) (acc : Option JVal) :
    rest.foldl (fun a p => if p.1 = f then some p.2 else a) acc =
      (lastKv rest f).elim acc some := by
  induction rest generalizing acc with
  | nil => simp [lastKv]
  | cons q rest ih =>
    simp only [List.foldl_cons]
    rw [ih]
    have hr : lastKv (q :: rest) f =
        (lastKv rest f).elim (if q.1 = f then some q.2 else none) some := by
      unfold lastKv
      simp only [List.foldl_cons]
      exact ih _
    rw [hr]
    cases h : lastKv rest f with
    | none => by_cases hq : q.1 = f <;> simp [hq]
    | some v => simp

theorem lastKv_cons (q : TabField × JVal) (rest : List (TabField × JVal)) (f : TabField) :
    lastKv (q :: rest) f = (lastKv rest f).elim (if q.1 = f then some q.2 else none) some := by
  unfold lastKv
  simp only [List.foldl_cons]
  exact lastKv_acc rest f _

theorem getField_applyKv (t : Tab) (kv : List (TabField × JVal)) (f : TabField) :
    getField (applyKv t kv) f = (lastKv kv f).getD (getField t f) := by
  induction kv generalizing t with
  | nil => simp [applyKv, lastKv]
  | cons p rest ih =>
    simp only [applyKv, List.foldl_cons] at *
    rw [ih, lastKv_cons]
    cases h : lastKv rest f with
    | none => by_cases hp : p.1 = f <;> simp [hp, getField_setField]
    | some v => simp

theorem getField_updNav (t : Tab) (x y : JVal) (f : TabField)
    (h1 : ¬f = TabField.canGoBack) (h2 : ¬f = TabField.canGoForward) :
    getField { t with canGoBack := x, canGoForward := y } f = getField t f := by
  cases f <;> simp_all [getField]

end MergeLemmas

section ClaimC6


/-- Counterexample to C6: setTabConfig on an id absent from the registry
is not a no-op — it creates a fresh entry for that id. -/
theorem setTabConfig_absent_not_noop_cex :
    setTabConfig c6s (some 7) [(.title, .vStr "x")] ≠ c6s ∧
    (alGet (setTabConfig c6s (some 7)
      [(.title, .vStr "x")]).tabConfigs (some 7)).isSome = true := by
  decide


/-- C6 (amended): for an id with an existing entry, setTabConfig stores
the merged record and pushes the registry-snapshot notification carrying
it; the merged record keeps every previously set field not overwritten by
the partial update, takes every field of the partial update, and
recomputes canGoBack and canGoForward from the live surface.  (On an
absent id it is not a no-op: a fresh entry is created instead.) -/
theorem setTabConfig_merges_fields (s : State) (id : Nat) (t : Tab)
    (kv : List (TabField × JVal))
    (ht : jsGetConf s id = some t) (hipc : s.ipc = true) :
    setTabConfig s (some id) kv = { s with
      tabConfigs := alUpd s.tabConfigs (some id) (some (mergedTab s (some id) kv))
      effects := Effect.tabsUpdate
        (alUpd s.tabConfigs (some id) (some (mergedTab s (some id) kv)))
        s.tabs :: s.effects } ∧
    (∀ f v, lastKv kv f = some v → getField (mergedTab s (some id) kv) f = v) ∧
    (∀ f, lastKv kv f = none → ¬f = TabField.canGoBack → ¬f = TabField.canGoForward →
      getField (mergedTab s (some id) kv) f = getField t f) ∧
    (lastKv kv TabField.canGoBack = none →
      getField (mergedTab s (some id) kv) TabField.canGoBack =
        navJVal ((jsGetView s id).map (·.wc)) (·.canGoBack)) ∧
    (lastKv kv TabField.canGoForward = none →
      getField (mergedTab s (some id) kv) TabField.canGoForward =
        navJVal ((jsGetView s id).map (·.wc)) (·.canGoForward)) := by
  have halg : alGet s.tabConfigs (some id) = some (some t) := jsGetConf_eq_some.mp ht
  have hmt : mergedTab s (some id) kv = applyKv
      { t with canGoBack := navJVal ((jsGetView s id).map (·.wc)) (·.canGoBack)
               canGoForward := navJVal ((jsGetView s id).map (·.wc)) (·.canGoForward) } kv := by
    simp only [mergedTab, halg]
  refine ⟨?_, ?_, ?_, ?_, ?_⟩
  · unfold setTabConfig
    rw [assignTabConfigs_eq]
    simp [hipc]
  · intro f v hv
    rw [hmt, getField_applyKv, hv]
    rfl
  · intro f hv h1 h2
    rw [hmt, getField_applyKv, hv]
    simpa using getField_updNav t _ _ f h1 h2
  · intro hv
    rw [hmt, getField_applyKv, hv]
    rfl
  · intro hv
    rw [hmt, getField_applyKv, hv]
    rfl

/-- Witness for the amended C6 on the populated registry. -/
theorem setTabConfig_merges_fields_w :
    (setTabConfig c6w (some 1) [(.title, .vStr "new")]).tabConfigs =
      alUpd c6w.tabConfigs (some 1)
        (some (mergedTab c6w (some 1) [(.title, .vStr "new")])) ∧
    getField (mergedTab c6w (some 1) [(.title, .vStr "new")]) TabField.title =
      .vStr "new" ∧
    getField (mergedTab c6w (some 1) [(.title, .vStr "new")]) TabField.url =
      .vStr "https://x.test" := by
  have h := setTabConfig_merges_fields c6w 1
    { url := .vStr "https://x.test", title := .vStr "old" }
    [(.title, .vStr "new")] rfl rfl
  refine ⟨by rw [h.1], h.2.1 TabField.title (.vStr "new") (by decide), ?_⟩
  have := h.2.2.1 TabField.url (by decide) (by decide) (by decide)
  simpa [getField] using this

end ClaimC6

section ActiveDecomp

/-- Decompose a live active selection into its stored pieces. -/
theorem active_decomp {s : State} {id : Nat} (hInv : Inv s)
    (hact : currentViewIds s = some id) :
    ∃ w, s.defCurrentViewId = some id ∧ ¬id = 0 ∧ jsGetView s id = some w ∧
      w.id = id ∧ id ∈ s.tabs := by
  unfold currentViewIds at hact
  cases hc : currentView s with
  | none =>
    rw [hc] at hact
    simp at hact
  | some w =>
    rw [hc] at hact
    simp at hact
    unfold currentView at hc
    cases hd : s.defCurrentViewId with
    | none =>
      rw [hd] at hc
      simp at hc
    | some k =>
      rw [hd] at hc
      by_cases hk0 : k = 0
      · simp [hk0] at hc
      · simp only [hk0, if_false] at hc
        have hwk : w.id = k :=
          (viewEntryOkB_live (hInv.2.2.2.2.2.1 _ (alGet_mem (jsGetView_eq_some.mp hc)))).2
        have hkid : k = id := by rw [← hwk, hact]
        subst hkid
        have hmem : k ∈ s.tabs :=
          hInv.2.2.1 _ (alGet_mem (jsGetView_eq_some.mp hc)) (by simp)
        exact ⟨w, rfl, hk0, hc, hwk, hmem⟩

end ActiveDecomp

section ClaimC4


/-- Counterexample to C4: switching to the already-active tab 1 is not a
no-op — it detaches and re-attaches the very same view again. -/
theorem switchTab_active_not_noop_cex :
    switchTab c4s 1 ≠ c4s ∧
    Effect.removeBrowserView 1 ∈ (switchTab c4s 1).effects ∧
    Effect.addBrowserView 1 ∈ (switchTab c4s 1).effects := by
  decide

/-- C4 (amended): switchTab performs no idempotence or presence check; on
an already-active id it repeats the full detach, attach, relayout,
active-change notification, send and focus side effects, and it is a
no-op only on the falsy id 0. -/
theorem switchTab_active_repeats_effects (s : State) (id : Nat)
    (hInv : Inv s) (hact : currentViewIds s = some id) :
    switchTab s id = { s with
      effects := Effect.focusContents id :: Effect.sendCurrentTab id ::
        ((if s.ipc then [Effect.activeUpdate id] else []) ++
          (Effect.relayout id :: Effect.addBrowserView id ::
            Effect.removeBrowserView id :: s.effects)) } ∧
    switchTab s 0 = s := by
  obtain ⟨w, hd, h0, hw, hwid, -⟩ := active_decomp hInv hact
  refine ⟨?_, rfl⟩
  unfold switchTab
  have hcv : currentView s = some w := by
    unfold currentView
    rw [hd]
    simp [h0, hw]
  rw [setCurrentView_live_some s id w w h0 hw hcv, hwid, hd]

/-- Witness for the amended C4 at the concrete active tab. -/
theorem switchTab_active_repeats_effects_w :
    switchTab c4s 1 = { c4s with
      effects := Effect.focusContents 1 :: Effect.sendCurrentTab 1 ::
        ((if c4s.ipc then [Effect.activeUpdate 1] else []) ++
          (Effect.relayout 1 :: Effect.addBrowserView 1 ::
            Effect.removeBrowserView 1 :: c4s.effects)) } :=
  (switchTab_active_repeats_effects c4s 1 (by decide) (by decide)).1

end ClaimC4

section ClaimC3


/-- Counterexample to C3: opening a tab next to the absent id 9 does not
append the new id 3 at the end of the order — it lands at the front. -/
theorem newTab_absent_appendTo_cex :
    (newTab c3s (some "https://u.test") (some 9)).tabs = [3, 1, 2] ∧
    (newTab c3s (some "https://u.test") (some 9)).tabs ≠ c3s.tabs ++ [3] := by
  decide

/-- C3 (amended): the fresh id is appended at the end when no truthy
insertAfterId is given, inserted immediately after insertAfterId when it
is present, and inserted at the front of the order when insertAfterId is
given but not present; the new tab becomes the active selection and the
new-tab notification carrying the new id, the url and the previously
active view is emitted last. -/
theorem newTab_insert_active_emit (s : State) (u : Option String) (a : Option Nat)
    (hInv : Inv s) :
    (a = none → (newTab s u a).tabs = s.tabs ++ [s.nextId]) ∧
    (∀ x, a = some x → x = 0 → (newTab s u a).tabs = s.tabs ++ [s.nextId]) ∧
    (∀ x, a = some x → x ≠ 0 → x ∈ s.tabs →
      (newTab s u a).tabs = insertAt s.tabs (idxOf s.tabs x + 1) s.nextId) ∧
    (∀ x, a = some x → x ≠ 0 → x ∉ s.tabs →
      (newTab s u a).tabs = s.nextId :: s.tabs) ∧
    currentViewIds (newTab s u a) = some s.nextId ∧
    (newTab s u a).effects.head? =
      some (.emitNewTab s.nextId u (currentViewIds s)) := by
  have h8 : 0 < s.nextId := hInv.2.2.2.2.2.2.2.1
  have hk : ∀ k, s.defCurrentViewId = some k → k ≠ s.nextId := by
    intro k hkd
    exact (Nat.ne_of_lt (currIdOkB_iff.mp hInv.2.2.2.2.2.2.2.2.2 k hkd))
  refine ⟨?_, ?_, ?_, ?_, ?_, ?_⟩
  · intro ha
    rw [newTab_tabs, ha, spliceTabs_none]
  · intro x ha hx
    rw [newTab_tabs, ha, hx, spliceTabs_some_zero]
  · intro x ha hx hm
    rw [newTab_tabs, ha, spliceTabs_some_mem _ hx hm]
  · intro x ha hx hm
    rw [newTab_tabs, ha, spliceTabs_some_absent _ hx hm]
  · exact newTab_currentViewIds s u a h8
  · exact newTab_effect_head s u a hk

/-- Witness for the amended C3: inserting after the present id 1. -/
theorem newTab_insert_active_emit_w :
    (newTab c3s (some "https://u.test") (some 1)).tabs =
      insertAt c3s.tabs (idxOf c3s.tabs 1 + 1) 3 ∧
    currentViewIds (newTab c3s (some "https://u.test") (some 1)) = some 3 := by
  have h := newTab_insert_active_emit c3s (some "https://u.test") (some 1) (by decide)
  exact ⟨h.2.2.1 1 rfl (by decide) (by decide), h.2.2.2.2.1⟩

end ClaimC3

section ClaimC1

theorem currentView_eq_some {s : State} {id : Nat} {w : ViewS}
    (hd : s.defCurrentViewId = some id) (h0 : ¬id = 0)
    (hw : jsGetView s id = some w) : currentView s = some w := by
  unfold currentView
  rw [hd]
  simp [h0, hw]

theorem closeTab_current_eq (s : State) (id : Nat)
    (hd : s.defCurrentViewId = some id) :
    closeTab s id =
      (if (setCurrentView s (jsAt s.tabs
          (if jsIndexOf s.tabs id = (s.tabs.length : Int) - 1 then jsIndexOf s.tabs id - 1
           else jsIndexOf s.tabs id + 1))).crashed
       then setCurrentView s (jsAt s.tabs
          (if jsIndexOf s.tabs id = (s.tabs.length : Int) - 1 then jsIndexOf s.tabs id - 1
           else jsIndexOf s.tabs id + 1))
       else closeTabRest (setCurrentView s (jsAt s.tabs
          (if jsIndexOf s.tabs id = (s.tabs.length : Int) - 1 then jsIndexOf s.tabs id - 1
           else jsIndexOf s.tabs id + 1))) id) := by
  unfold closeTab
  simp [hd]


/-- C1: closing the active tab moves the active selection to the neighbor
immediately after the closed id in the pre-close order, or to the
neighbor immediately before it when the closed id was last; when the
order becomes empty the active selection (read through the currentView
getter) is gone. -/
theorem closeTab_active_picks_neighbor (s : State) (id : Nat)
    (hInv : Inv s) (hact : currentViewIds s = some id) :
    currentViewIds (closeTab s id) = neighborAfterElseBefore s.tabs id := by
  obtain ⟨w, hd, h0, hw, hwid, hmem⟩ := active_decomp hInv hact
  have h1 : s.tabs.Nodup := hInv.1
  have h5 := hInv.2.2.2.2.1
  have h6 := hInv.2.2.2.2.2.1
  have h9 : s.crashed = false := hInv.2.2.2.2.2.2.2.2.1
  have hwd : w.wc.destroyed = false :=
    (viewEntryOkB_live (h6 _ (alGet_mem (jsGetView_eq_some.mp hw)))).1
  have hi : idxOf s.tabs id < s.tabs.length := idxOf_lt_length hmem
  have hgeti : s.tabs.get? (idxOf s.tabs id) = some id := get?_idxOf hmem
  have hjsidx : jsIndexOf s.tabs id = (idxOf s.tabs id : Int) := by
    simp [jsIndexOf, hmem]
  have hlenpos : 0 < s.tabs.length := by omega
  rw [closeTab_current_eq s id hd]
  by_cases hlen1 : s.tabs.length = 1
  · -- closing the only tab: the selection move is a silent no-op and the
    -- destroyed view leaves the getter with nothing
    have hi0 : idxOf s.tabs id = 0 := by omega
    have hat : jsAt s.tabs
        (if jsIndexOf s.tabs id = (s.tabs.length : Int) - 1 then jsIndexOf s.tabs id - 1
         else jsIndexOf s.tabs id + 1) = none := by
      rw [hjsidx, hi0, hlen1]
      simp [jsAt]
    rw [hat, setCurrentView_none]
    simp only [h9, Bool.false_eq_true, if_false]
    rw [closeTabRest_live s id w hw hwd]
    unfold currentViewIds currentView neighborAfterElseBefore
    simp [hd, h0, jsGetView, alGet_upd_self, hlen1]
  · have hlen2 : 2 ≤ s.tabs.length := by omega
    have hcv : currentView s = some w := currentView_eq_some hd h0 hw
    by_cases hlast : idxOf s.tabs id = s.tabs.length - 1
    · -- the closed id is last: the neighbor before it takes over
      have hcond : jsIndexOf s.tabs id = (s.tabs.length : Int) - 1 := by
        rw [hjsidx]
        omega
      have hi1 : 1 ≤ idxOf s.tabs id := by omega
      have hidx : (jsIndexOf s.tabs id - 1).toNat = idxOf s.tabs id - 1 := by
        rw [hjsidx]
        omega
      obtain ⟨p, hgetp⟩ := Option.isSome_iff_exists.mp
        (by rw [List.get?_eq_get (show idxOf s.tabs id - 1 < s.tabs.length by omega)]; rfl :
          (s.tabs.get? (idxOf s.tabs id - 1)).isSome = true)
      have hpm : p ∈ s.tabs := List.get?_mem hgetp
      have hpid : p ≠ id := by
        intro hc
        subst hc
        have := List.get?_inj (show idxOf s.tabs p - 1 < s.tabs.length by omega) h1
          (hgetp.trans hgeti.symm)
        omega
      obtain ⟨wp, hwp, -, hwpid⟩ := live_of_mem_tabs hInv hpm
      have hp0 : ¬p = 0 := (h5 p hpm).1.ne'
      have hat : jsAt s.tabs
          (if jsIndexOf s.tabs id = (s.tabs.length : Int) - 1 then jsIndexOf s.tabs id - 1
           else jsIndexOf s.tabs id + 1) = some p := by
        rw [if_pos hcond]
        unfold jsAt
        rw [if_neg (by rw [hjsidx]; omega), hidx]
        exact hgetp
      rw [hat, setCurrentView_live_some s p wp w hp0 hwp hcv]
      simp only [h9, Bool.false_eq_true, if_false]
      rw [closeTabRest_live _ id w (by exact hw) hwd]
      unfold currentViewIds currentView neighborAfterElseBefore
      simp only [jsGetView, alGet_upd_ne _ _ _ _ hpid]
      rw [jsGetView_eq_some.mp hwp]
      have hgt1 : ¬s.tabs.length ≤ 1 := by omega
      simp [hp0, hwpid, hlast, hgetp, hgt1]
      rw [hlast] at hgetp
      simpa using hgetp.symm
    · -- the closed id is not last: the neighbor after it takes over
      have hcond : ¬jsIndexOf s.tabs id = (s.tabs.length : Int) - 1 := by
        rw [hjsidx]
        omega
      have hidx : (jsIndexOf s.tabs id + 1).toNat = idxOf s.tabs id + 1 := by
        rw [hjsidx]
        omega
      have hi1 : idxOf s.tabs id + 1 < s.tabs.length := by omega
      obtain ⟨p, hgetp⟩ := Option.isSome_iff_exists.mp
        (by rw [List.get?_eq_get hi1]; rfl :
          (s.tabs.get? (idxOf s.tabs id + 1)).isSome = true)
      have hpm : p ∈ s.tabs := List.get?_mem hgetp
      have hpid : p ≠ id := by
        intro hc
        subst hc
        have := List.get?_inj (show idxOf s.tabs p + 1 < s.tabs.length from hi1) h1
          (hgetp.trans hgeti.symm)
        omega
      obtain ⟨wp, hwp, -, hwpid⟩ := live_of_mem_tabs hInv hpm
      have hp0 : ¬p = 0 := (h5 p hpm).1.ne'
      have hat : jsAt s.tabs
          (if jsIndexOf s.tabs id = (s.tabs.length : Int) - 1 then jsIndexOf s.tabs id - 1
           else jsIndexOf s.tabs id + 1) = some p := by
        rw [if_neg hcond]
        unfold jsAt
        rw [if_neg (by rw [hjsidx]; omega), hidx]
        exact hgetp
      rw [hat, setCurrentView_live_some s p wp w hp0 hwp hcv]
      simp only [h9, Bool.false_eq_true, if_false]
      rw [closeTabRest_live _ id w (by exact hw) hwd]
      unfold currentViewIds currentView neighborAfterElseBefore
      simp only [jsGetView, alGet_upd_ne _ _ _ _ hpid]
      rw [jsGetView_eq_some.mp hwp]
      have hgt1 : ¬s.tabs.length ≤ 1 := by omega
      simp [hp0, hwpid, hlast, hgetp, hgt1]
      simpa using hgetp.symm

/-- Witness for C1: closing active tab 1 of the order [1, 2] hands the
selection to its following neighbor 2. -/
theorem closeTab_active_picks_neighbor_w :
    currentViewIds (closeTab c1s 1) = neighborAfterElseBefore c1s.tabs 1 :=
  closeTab_active_picks_neighbor c1s 1 (by decide) (by decide)

end ClaimC1

section ClaimC2

/-- C2: every finite sequence of open and close operations from the empty
registry keeps the registry invariant: the order is duplicate free, holds
exactly the live (non-tombstoned) views, and every listed id carries a
non-null configuration entry. -/
theorem openClose_registry_invariant (opts : Options) (controlId : Nat)
    (ops : List TabOp) :
    Inv (applyOps (initState opts controlId) ops) :=
  inv_applyOps _ ops (inv_initState opts controlId)

end ClaimC2

end ElectronTabs
